import Mathlib

/-!
Verification of the typed-record serialization model and file-resident
stores of `tbm13_utils` (module `encoding.py`), via a shallow embedding.

Modelling conventions:
* Python exceptions are `Except PyError`; `TypeError`, `KeyError` and
  `ValueError` become the constructors of `PyError`.
* Python runtime types (`type(x)`, the `is` identity on classes) become
  the inductive `PyType`; a concrete `Serializable` subclass is
  `PyType.serial c` for a class id `c : Nat`.
* Python sets and dicts are modelled as Lean lists (insertion-ordered,
  as CPython dicts are); set membership uses structural equality.
* Mutable aliasing (needed by the clone/aliasing claims) is modelled by
  an explicit heap of records addressed by `Nat`.
-/

namespace Tbm13

/-- The Python exception kinds raised by the embedded code. -/
inductive PyError where
  | typeError
  | keyError
  | valueError
  | attributeError
  deriving DecidableEq, Repr

instance {ε α : Type} [DecidableEq ε] [DecidableEq α] : DecidableEq (Except ε α) :=
  fun x y =>
    match x, y with
    | .ok a, .ok b => decidable_of_iff (a = b) (by simp)
    | .error e, .error f => decidable_of_iff (e = f) (by simp)
    | .ok _, .error _ => isFalse (by simp)
    | .error _, .ok _ => isFalse (by simp)

/-- A Python runtime type as `UpdateMode.validate_type` inspects it:
`list`, `dict`, `set`, a concrete `Serializable` subclass (identified by
a class id, since `is` compares class identity), or any other type. -/
inductive PyType where
  | list
  | dict
  | set
  | serial (c : Nat)
  | prim (n : Nat)
  deriving DecidableEq, Repr

/-- `issubclass(t, Serializable)` on a runtime type. -/
def PyType.isSerialSubclass : PyType → Bool
  | .serial _ => true
  | _ => false

/-- `UpdateMode` from `encoding.py`: how a field of a `Serializable` is
updated when `update()` is called. -/
inductive UpdateMode where
  | ignore
  | replace
  | listAppend
  | listAppendIfNotExists
  | merge
  deriving DecidableEq, Repr

/-- `UpdateMode.validate_type(self, field_type, other_type)` from
`encoding.py`: raises `TypeError` when a list-append mode is used with a
non-list side, or merge with sides that are not both dict/set/Serializable
or not the identical type. -/
def UpdateMode.validate_type (m : UpdateMode) (field_type other_type : PyType) :
    Except PyError Unit :=
  if m = .listAppend ∨ m = .listAppendIfNotExists then
    if field_type ≠ .list ∨ other_type ≠ .list then
      .error .typeError
    else
      .ok ()
  else if m = .merge then
    let field_valid := field_type = .dict ∨ field_type = .set ∨ field_type.isSerialSubclass
    let other_valid := other_type = .dict ∨ other_type = .set ∨ other_type.isSerialSubclass
    if ¬ (field_valid ∧ other_valid) then
      .error .typeError
    else if field_type ≠ other_type then
      .error .typeError
    else
      .ok ()
  else
    .ok ()

/-! ## The record model (`Serializable`)

A `Serializable` instance is modelled as a class id plus its fields.
Field values are drawn from a two-level universe: atoms, containers of
atoms, and (at the top level) nested `Serializable` objects whose own
fields hold atoms or containers of atoms.  Each field records whether it
was explicitly set (pydantic's `exclude_unset` notion) and the
`update_mode` attached to it through `CustomField` on its class. -/

/-- An atomic Python value: int, str, bool or None. -/
inductive Atom where
  | aint (n : Int)
  | astr (s : String)
  | abool (b : Bool)
  | anone
  deriving DecidableEq, Repr

/-- A value held by a field of a *nested* `Serializable`: an atom or a
homogeneous container of atoms. -/
inductive FVal where
  | atom (a : Atom)
  | flist (xs : List Atom)
  | fset (xs : List Atom)
  | fdict (xs : List (String × Atom))
  deriving DecidableEq, Repr

/-- A field of a nested `Serializable`: name, `update_mode` metadata,
whether it was explicitly set, and its current value. -/
structure FField where
  name : String
  mode : UpdateMode
  isSet : Bool
  value : FVal
  deriving DecidableEq, Repr

/-- A nested `Serializable` instance: concrete class id and fields. -/
structure FlatObj where
  cls : Nat
  fields : List FField
  deriving DecidableEq, Repr

/-- A value held by a field of a top-level `Serializable`: an atom, a
container of atoms, or a nested `Serializable`. -/
inductive PVal where
  | atom (a : Atom)
  | vlist (xs : List Atom)
  | vset (xs : List Atom)
  | vdict (xs : List (String × Atom))
  | vobj (o : FlatObj)
  deriving DecidableEq, Repr

/-- A field of a top-level `Serializable`. -/
structure Field where
  name : String
  mode : UpdateMode
  isSet : Bool
  value : PVal
  deriving DecidableEq, Repr

/-- A top-level `Serializable` instance: concrete class id and fields. -/
structure Obj where
  cls : Nat
  fields : List Field
  deriving DecidableEq, Repr

/-- The Python runtime type of an atom (`type(x)` for an atomic value). -/
def Atom.pyType : Atom → PyType
  | .aint _ => .prim 0
  | .astr _ => .prim 1
  | .abool _ => .prim 2
  | .anone => .prim 3

/-- `type(x)` for a nested-field value. -/
def FVal.pyType : FVal → PyType
  | .atom a => a.pyType
  | .flist _ => .list
  | .fset _ => .set
  | .fdict _ => .dict

/-- `type(x)` for a top-level-field value; a nested `Serializable` has
its concrete class as its type. -/
def PVal.pyType : PVal → PyType
  | .atom a => a.pyType
  | .vlist _ => .list
  | .vset _ => .set
  | .vdict _ => .dict
  | .vobj o => .serial o.cls

/-! ### `model_dump` and structural equality (`Serializable.__eq__`) -/

/-- The shape of a `model_dump()` entry: class information is stripped, a
nested `Serializable` dumps to a plain mapping of its field dumps. -/
inductive DVal where
  | atom (a : Atom)
  | dlist (xs : List Atom)
  | dset (xs : List Atom)
  | ddict (xs : List (String × Atom))
  | dobj (xs : List (String × FVal))
  deriving DecidableEq, Repr

/-- `model_dump()` of a top-level field value. -/
def PVal.dump : PVal → DVal
  | .atom a => .atom a
  | .vlist xs => .dlist xs
  | .vset xs => .dset xs
  | .vdict xs => .ddict xs
  | .vobj o => .dobj (o.fields.map fun f => (f.name, f.value))

/-- `model_dump()` of a top-level `Serializable`: every field (set or
not) mapped to its dumped value; the concrete class does not appear. -/
def Obj.model_dump (a : Obj) : List (String × DVal) :=
  a.fields.map fun f => (f.name, f.value.dump)

/-- A Python value as seen by `Serializable.__eq__`'s argument: either a
`Serializable` instance or something that is not one. -/
inductive PyAny where
  | serializable (o : Obj)
  | nonSerializable (tag : Nat)
  deriving DecidableEq, Repr

/-- `Serializable.__eq__` from `encoding.py`: `False` against anything
that is not a `Serializable`, otherwise comparison of the two
`model_dump()` mappings. -/
def Serializable.eq (a : Obj) (value : PyAny) : Bool :=
  match value with
  | .nonSerializable _ => false
  | .serializable b => decide (a.model_dump = b.model_dump)

/-! ### `Serializable.update` -/

/-- `getattr(self, name)` on a nested object's field (with its
metadata); `none` models the `AttributeError` case. -/
def FlatObj.findField (o : FlatObj) (n : String) : Option FField :=
  o.fields.find? fun f => f.name = n

/-- `setattr(self, name, v)`: replaces the field's value and marks the
field as explicitly set. -/
def FlatObj.setAttr (o : FlatObj) (n : String) (v : FVal) : FlatObj :=
  ⟨o.cls, o.fields.map fun f => if f.name = n then ⟨f.name, f.mode, true, v⟩ else f⟩

/-- In-place mutation of the container a field holds (`val.extend`,
`val.update`, ...): the value changes, the set-flag does not. -/
def FlatObj.setInPlace (o : FlatObj) (n : String) (v : FVal) : FlatObj :=
  ⟨o.cls, o.fields.map fun f => if f.name = n then ⟨f.name, f.mode, f.isSet, v⟩ else f⟩

/-- `for item in ys: if item not in xs: xs.append(item)` — also Python's
`set.update` restricted to the elements not yet present. -/
def listAppendAbsent (xs ys : List Atom) : List Atom :=
  ys.foldl (fun acc y => if y ∈ acc then acc else acc ++ [y]) xs

/-- Python `dict.update`: the other dict's entries win on key conflict,
existing keys keep their position, new keys are appended. -/
def dictUpdate (xs ys : List (String × Atom)) : List (String × Atom) :=
  ys.foldl
    (fun acc kv =>
      if (acc.find? fun e => e.1 = kv.1).isSome then
        acc.map fun e => if e.1 = kv.1 then kv else e
      else
        acc ++ [kv])
    xs

/-- One already-validated update action at the nested level: `sf` is
self's field, `f` the other object's field with the same name. -/
def flatApply (a : FlatObj) (sf f : FField) : Except PyError FlatObj :=
  match sf.mode with
  | .replace => .ok (a.setAttr f.name f.value)
  | .listAppend =>
    match sf.value, f.value with
    | .flist xs, .flist ys => .ok (a.setInPlace f.name (.flist (xs ++ ys)))
    | _, _ => .error .typeError
  | .listAppendIfNotExists =>
    match sf.value, f.value with
    | .flist xs, .flist ys => .ok (a.setInPlace f.name (.flist (listAppendAbsent xs ys)))
    | _, _ => .error .typeError
  | .merge =>
    match sf.value, f.value with
    | .fdict xs, .fdict ys => .ok (a.setInPlace f.name (.fdict (dictUpdate xs ys)))
    | .fset xs, .fset ys => .ok (a.setInPlace f.name (.fset (listAppendAbsent xs ys)))
    | _, _ => .error .typeError
  | .ignore => .ok a

/-- The field loop of `Serializable.update` at the nested level:
iterates the other object's explicitly-set fields in declaration order,
skips excluded names, validates the update mode against both runtime
types and applies it. -/
def flatUpdateGo (a : FlatObj) : List FField → List String → Except PyError FlatObj
  | [], _ => .ok a
  | f :: rest, excluded =>
    if f.isSet = false then
      flatUpdateGo a rest excluded
    else if f.name ∈ excluded then
      flatUpdateGo a rest excluded
    else
      match a.findField f.name with
      | none => .error .attributeError
      | some sf =>
        match sf.mode.validate_type sf.value.pyType f.value.pyType with
        | .error e => .error e
        | .ok _ =>
          match flatApply a sf f with
          | .error e => .error e
          | .ok a2 => flatUpdateGo a2 rest excluded

/-- `Serializable.update` for a nested object (as reached through a
`MERGE` field): the leading exact-type guard, then the field loop. -/
def FlatObj.update (self other : FlatObj) (excluded : List String) :
    Except PyError FlatObj :=
  if self.cls ≠ other.cls then
    .error .typeError
  else
    flatUpdateGo self other.fields excluded

/-- `getattr(self, name)` on a top-level object's field. -/
def Obj.findField (o : Obj) (n : String) : Option Field :=
  o.fields.find? fun f => f.name = n

/-- `setattr(self, name, v)` on a top-level object. -/
def Obj.setAttr (o : Obj) (n : String) (v : PVal) : Obj :=
  ⟨o.cls, o.fields.map fun f => if f.name = n then ⟨f.name, f.mode, true, v⟩ else f⟩

/-- In-place mutation of a top-level field's container or nested object. -/
def Obj.setInPlace (o : Obj) (n : String) (v : PVal) : Obj :=
  ⟨o.cls, o.fields.map fun f => if f.name = n then ⟨f.name, f.mode, f.isSet, v⟩ else f⟩

/-- One already-validated update action at the top level.  `MERGE` on a
nested `Serializable` recurses into its `update` (with no exclusions, as
the source calls `val.update(other_val)`). -/
def applyField (a : Obj) (sf f : Field) : Except PyError Obj :=
  match sf.mode with
  | .replace => .ok (a.setAttr f.name f.value)
  | .listAppend =>
    match sf.value, f.value with
    | .vlist xs, .vlist ys => .ok (a.setInPlace f.name (.vlist (xs ++ ys)))
    | _, _ => .error .typeError
  | .listAppendIfNotExists =>
    match sf.value, f.value with
    | .vlist xs, .vlist ys => .ok (a.setInPlace f.name (.vlist (listAppendAbsent xs ys)))
    | _, _ => .error .typeError
  | .merge =>
    match sf.value, f.value with
    | .vdict xs, .vdict ys => .ok (a.setInPlace f.name (.vdict (dictUpdate xs ys)))
    | .vset xs, .vset ys => .ok (a.setInPlace f.name (.vset (listAppendAbsent xs ys)))
    | .vobj so, .vobj fo =>
      match so.update fo [] with
      | .error e => .error e
      | .ok so2 => .ok (a.setInPlace f.name (.vobj so2))
    | _, _ => .error .typeError
  | .ignore => .ok a

/-- The field loop of `Serializable.update` at the top level. -/
def updateGo (a : Obj) : List Field → List String → Except PyError Obj
  | [], _ => .ok a
  | f :: rest, excluded =>
    if f.isSet = false then
      updateGo a rest excluded
    else if f.name ∈ excluded then
      updateGo a rest excluded
    else
      match a.findField f.name with
      | none => .error .attributeError
      | some sf =>
        match sf.mode.validate_type sf.value.pyType f.value.pyType with
        | .error e => .error e
        | .ok _ =>
          match applyField a sf f with
          | .error e => .error e
          | .ok a2 => updateGo a2 rest excluded

/-- `Serializable.update(self, other, excluded)` from `encoding.py`:
raises `TypeError` unless `type(other) is type(self)`, then updates every
explicitly-set, non-excluded field of `other` according to the field's
`UpdateMode`. -/
def Serializable.update (self other : Obj) (excluded : List String) :
    Except PyError Obj :=
  if self.cls ≠ other.cls then
    .error .typeError
  else
    updateGo self other.fields excluded

/-! ### `model_dump_json` and the stores' `_serialize`

`SerializableFile._serialize` and `MultiKeySerializableFile._serialize`
write `obj.model_dump_json()` for every stored object, one per line.
Pydantic's `model_dump_json()` is called with no arguments, so it
includes **every** field of the model — also the ones still equal to
their declared default.  The printer below reproduces its compact JSON
form for our value universe (strings are assumed to need no escaping). -/

/-- JSON text of an atom. -/
def Atom.json : Atom → String
  | .aint n => toString n
  | .astr s => "\"" ++ s ++ "\""
  | .abool b => if b then "true" else "false"
  | .anone => "null"

/-- JSON text of a list of atoms. -/
def atomsJson (xs : List Atom) : String :=
  "[" ++ String.intercalate "," (xs.map Atom.json) ++ "]"

/-- JSON text of a string-keyed mapping of atoms. -/
def atomDictJson (xs : List (String × Atom)) : String :=
  "\x7b" ++ String.intercalate "," (xs.map fun kv => "\"" ++ kv.1 ++ "\":" ++ kv.2.json) ++ "\x7d"

/-- JSON text of a nested-field value. -/
def FVal.json : FVal → String
  | .atom a => a.json
  | .flist xs => atomsJson xs
  | .fset xs => atomsJson xs
  | .fdict xs => atomDictJson xs

/-- `model_dump_json()` of a nested `Serializable`: all of its fields. -/
def FlatObj.model_dump_json (o : FlatObj) : String :=
  "\x7b"
    ++ String.intercalate ","
        (o.fields.map fun f => "\"" ++ f.name ++ "\":" ++ f.value.json)
    ++ "\x7d"

/-- JSON text of a top-level-field value. -/
def PVal.json : PVal → String
  | .atom a => a.json
  | .vlist xs => atomsJson xs
  | .vset xs => atomsJson xs
  | .vdict xs => atomDictJson xs
  | .vobj o => o.model_dump_json

/-- `model_dump_json()` of a top-level `Serializable`: all of its
fields, set or not, in declaration order. -/
def Obj.model_dump_json (o : Obj) : String :=
  "\x7b"
    ++ String.intercalate ","
        (o.fields.map fun f => "\"" ++ f.name ++ "\":" ++ f.value.json)
    ++ "\x7d"

/-- `SerializableFile._serialize` from `encoding.py`: one
`model_dump_json()` line per stored object, joined by newlines. -/
def SerializableFile.serializeDic {K : Type} (dic : List (K × Obj)) : String :=
  String.intercalate "\n" (dic.map fun e => e.2.model_dump_json)

/-- `MultiKeySerializableFile._serialize` from `encoding.py`: one
`model_dump_json()` line per stored object, over all key groups. -/
def MultiKeySerializableFile.serializeDic {K : Type} (dic : List (K × List Obj)) : String :=
  String.intercalate "\n" ((dic.map fun e => e.2.map Obj.model_dump_json).flatten)

/-! ## Change-detecting file handle (`BaseTextFile.modified_externally`) -/

/-- The (st_mtime_ns, st_size) part of an `os.stat` result. -/
structure FileStat where
  mtime_ns : Int
  size : Int
  deriving DecidableEq, Repr

/-- The snapshot a `BaseTextFile` keeps: `_last_mtime_ns` (`None` before
the first successful read of an existing file) and `_last_size`. -/
structure Snapshot where
  last_mtime_ns : Option Int
  last_size : Int
  deriving DecidableEq, Repr

/-- `BaseTextFile.modified_externally` from `encoding.py`.  `file` is
`none` when the file does not exist, `some st` its stat otherwise. -/
def modified_externally (snap : Snapshot) (file : Option FileStat) : Bool :=
  match snap.last_mtime_ns with
  | none =>
    -- We never read the file. If it exists, we need to read it.
    file.isSome
  | some m =>
    match file with
    | none => true   -- we read it before and it was deleted
    | some st =>
      decide (snap.last_size ≠ st.size) || decide (m ≠ st.mtime_ns)

/-! ## Locked text store (`BaseTextFile`): locking, `_read`, `_write`,
`modify`

The store is modelled operationally.  `TFState` is the instance state
(`_lock`'s reentrant hold count, `_modify_depth`, the snapshot, the
cached data `D`) together with the backing file (content and stat; the
only external resource) and a clock supplying fresh modification times.
Executing an operation yields its result, the next state and a trace of
lock/file events, so that claims about lock release and about how many
file reads/writes a scope performs are statements about traces. -/

/-- An observable event: the scoped lock acquire/release of a critical
section, and an actual content read or write of the backing file. -/
inductive Ev where
  | acquire
  | release
  | fileRead
  | fileWrite
  deriving DecidableEq, Repr

/-- The backing file: its text plus the stat data the handle snapshots. -/
structure FileRec where
  content : String
  mtime_ns : Int
  size : Int
  deriving DecidableEq, Repr

/-- `readlines()` of a file's text, lines without their terminators
(the subclasses strip each line anyway). -/
def linesOf (content : String) : List String :=
  content.splitOn "\n"

/-- The state of one `BaseTextFile` instance plus the file system. -/
structure TFState (D : Type) where
  lockCount : Nat
  modifyDepth : Nat
  last_mtime_ns : Option Int
  last_size : Int
  cache : D
  file : Option FileRec
  clock : Int
  deriving DecidableEq, Repr

/-- The handle's snapshot inside a `TFState`. -/
def TFState.snapshot {D : Type} (s : TFState D) : Snapshot :=
  ⟨s.last_mtime_ns, s.last_size⟩

/-- The stat of a `FileRec`. -/
def FileRec.stat (f : FileRec) : FileStat :=
  ⟨f.mtime_ns, f.size⟩

/-- `BaseTextFile._read` from `encoding.py`.  Returns immediately when
inside a `modify` scope; otherwise, under the lock: nothing when the
file is unmodified; resets the cache and snapshot when the file is gone;
reads and deserializes it otherwise (recording the snapshot only after
`_deserialize` succeeded).  `deserialize` models the subclass hook and
may raise. -/
def readOp {D : Type} (deserialize : List String → Except PyError D)
    (s : TFState D) : Except PyError Unit × TFState D × List Ev :=
  if s.modifyDepth > 0 then
    (.ok (), s, [])
  else
    if modified_externally s.snapshot (s.file.map FileRec.stat) = false then
      (.ok (), s, [.acquire, .release])
    else
      match s.file with
      | none =>
        match deserialize [] with
        | .ok d =>
          (.ok (), { s with cache := d, last_mtime_ns := none, last_size := 0 },
            [.acquire, .release])
        | .error e => (.error e, s, [.acquire, .release])
      | some f =>
        match deserialize (linesOf f.content) with
        | .ok d =>
          (.ok (),
            { s with cache := d, last_mtime_ns := some f.mtime_ns, last_size := f.size },
            [.acquire, .fileRead, .release])
        | .error e => (.error e, s, [.acquire, .fileRead, .release])

/-- `BaseTextFile._write` from `encoding.py`.  Returns immediately when
inside a `modify` scope; otherwise, under the lock, writes
`_serialize()` out, syncs, and records the fresh stat as the snapshot.
`serialize` models the subclass hook (pure in both subclasses). -/
def writeOp {D : Type} (serialize : D → String) (s : TFState D) :
    TFState D × List Ev :=
  if s.modifyDepth > 0 then
    (s, [])
  else
    let content := serialize s.cache
    let f : FileRec := ⟨content, s.clock, (content.length : Int)⟩
    ({ s with
        file := some f
        last_mtime_ns := some f.mtime_ns
        last_size := f.size
        clock := s.clock + 1 },
      [.acquire, .fileWrite, .release])

/-- A client program over one store instance: an in-memory mutation of
the cached structure that may raise (the body of a store operation), a
call to `_read` (as every public read API makes), a call to `_write`, a
sequence, or a `with self.modify():` scope around a sub-program. -/
inductive Prog (D : Type) where
  | act (f : D → Except PyError D)
  | readCall
  | writeCall
  | seq (p q : Prog D)
  | modifyScope (p : Prog D)

/-- Executes a program against a store state, producing the result (a
propagated exception or unit), the final state and the event trace.
`modifyScope` follows `BaseTextFile.modify` exactly: increment
`_modify_depth`; if it became 1, acquire the lock and call `_read`
(which, the depth being positive already, returns at once); run the
body under `try`; in `finally` decrement the depth and, back at depth 0,
call `_write` and release the lock — whether the body succeeded or
raised. -/
def execP {D : Type} (deserialize : List String → Except PyError D)
    (serialize : D → String) : Prog D → TFState D →
    Except PyError Unit × TFState D × List Ev
  | .act f, s =>
    match f s.cache with
    | .ok d => (.ok (), { s with cache := d }, [])
    | .error e => (.error e, s, [])
  | .readCall, s => readOp deserialize s
  | .writeCall, s =>
    let w := writeOp serialize s
    (.ok (), w.1, w.2)
  | .seq p q, s =>
    let rp := execP deserialize serialize p s
    match rp.1 with
    | .ok _ =>
      let rq := execP deserialize serialize q rp.2.1
      (rq.1, rq.2.1, rp.2.2 ++ rq.2.2)
    | .error e => (.error e, rp.2.1, rp.2.2)
  | .modifyScope p, s =>
    let s1 : TFState D := { s with modifyDepth := s.modifyDepth + 1 }
    if s1.modifyDepth = 1 then
      let s2 : TFState D := { s1 with lockCount := s1.lockCount + 1 }
      let rr := readOp deserialize s2
      match rr.1 with
      | .error e =>
        -- an exception before `yield`: the generator's `finally` never runs
        (.error e, rr.2.1, .acquire :: rr.2.2)
      | .ok _ =>
        let res := execP deserialize serialize p rr.2.1
        let s5 : TFState D := { res.2.1 with modifyDepth := res.2.1.modifyDepth - 1 }
        if s5.modifyDepth = 0 then
          let w := writeOp serialize s5
          let s7 : TFState D := { w.1 with lockCount := w.1.lockCount - 1 }
          (res.1, s7, .acquire :: (rr.2.2 ++ res.2.2 ++ w.2 ++ [.release]))
        else
          (res.1, s5, .acquire :: (rr.2.2 ++ res.2.2))
    else
      let res := execP deserialize serialize p s1
      let s3 : TFState D := { res.2.1 with modifyDepth := res.2.1.modifyDepth - 1 }
      if s3.modifyDepth = 0 then
        let w := writeOp serialize s3
        let s5 : TFState D := { w.1 with lockCount := w.1.lockCount - 1 }
        (res.1, s5, res.2.2 ++ w.2 ++ [.release])
      else
        (res.1, s3, res.2.2)

/-! ## Keyed store (`SerializableFile`) with explicit aliasing

The store's dictionary `_dic` maps keys to *references* to Record
instances.  To express the clone/aliasing contracts, instances live on
an explicit heap: `model_copy(deep=True)` is an allocation of an equal
value at a fresh address, mutation of an instance is `Heap.write`, and
`is`-identity is address equality.  The store is generic in the key type
`K` and record value type `V` exactly as `SerializableFile[K, V]` is;
`key : V → K` models `getattr(obj, self._key_name)`. -/

/-- A heap of record instances; an address is an index into `recs`. -/
structure Heap (V : Type) where
  recs : List V
  deriving DecidableEq, Repr

/-- Allocates a new instance holding `v`; returns the new heap and the
fresh address. -/
def Heap.alloc {V : Type} (h : Heap V) (v : V) : Heap V × Nat :=
  (⟨h.recs ++ [v]⟩, h.recs.length)

/-- The value held by the instance at address `a` (addresses handed out
by the model are always in range; out-of-range reads default). -/
def Heap.read {V : Type} [Inhabited V] (h : Heap V) (a : Nat) : V :=
  h.recs.getD a default

/-- External mutation of the instance at address `a`. -/
def Heap.write {V : Type} (h : Heap V) (a : Nat) (v : V) : Heap V :=
  ⟨h.recs.set a v⟩

/-- The dictionary of a `SerializableFile`: insertion-ordered key to
instance-address pairs. -/
abbrev SDic (K : Type) : Type := List (K × Nat)

/-- `key in self._dic` / `self._dic[key]` as an address lookup. -/
def dicLookup {K : Type} [DecidableEq K] (s : SDic K) (k : K) : Option Nat :=
  (List.find? (fun e => decide (e.1 = k)) s).map fun e => e.2

/-- `self._dic[key] = a`: replaces in place or appends a new entry, as a
CPython dict does. -/
def dicInsert {K : Type} [DecidableEq K] (s : SDic K) (k : K) (a : Nat) : SDic K :=
  if (dicLookup s k).isSome then
    List.map (fun e => if e.1 = k then (k, a) else e) s
  else
    s ++ [(k, a)]

/-- `self._dic.pop(key)`'s removal of the entry. -/
def dicRemove {K : Type} [DecidableEq K] (s : SDic K) (k : K) : SDic K :=
  List.filter (fun e => decide (e.1 ≠ k)) s

/-- The addresses the store currently holds. -/
def dicAddrs {K : Type} (s : SDic K) : List Nat :=
  List.map (fun e => e.2) s

/-- The *value* a later `get(k)` hands back (it returns a fresh deep
clone of this value), i.e. the value of the instance the store holds
under `k`. -/
def obsGet {K V : Type} [DecidableEq K] [Inhabited V]
    (h : Heap V) (s : SDic K) (k : K) : Option V :=
  (dicLookup s k).map (Heap.read h)

/-- `SerializableFile.get(key)` (no-default overload) from
`encoding.py`: `KeyError` when absent, otherwise
`self._dic[key].model_copy(deep=True)` — the address of a fresh clone. -/
def SerializableFile.get {K V : Type} [DecidableEq K] [Inhabited V]
    (h : Heap V) (s : SDic K) (k : K) : Except PyError Nat × Heap V :=
  match dicLookup s k with
  | none => (.error .keyError, h)
  | some a =>
    let al := h.alloc (h.read a)
    (.ok al.2, al.1)

/-- `SerializableFile.set(obj)` from `encoding.py`: stores a fresh deep
clone of the caller's instance under the clone's key. -/
def SerializableFile.set {K V : Type} [DecidableEq K] [Inhabited V] (key : V → K)
    (h : Heap V) (s : SDic K) (a : Nat) : Heap V × SDic K :=
  let v := h.read a
  let al := h.alloc v
  (al.1, dicInsert s (key v) al.2)

/-- `SerializableFile.add(obj)` from `encoding.py`: clones first, then
raises `KeyError` if the key already exists, otherwise stores the
clone. -/
def SerializableFile.add {K V : Type} [DecidableEq K] [Inhabited V] (key : V → K)
    (h : Heap V) (s : SDic K) (a : Nat) : Except PyError Unit × Heap V × SDic K :=
  let v := h.read a
  let al := h.alloc v
  let k := key v
  if (dicLookup s k).isSome then
    (.error .keyError, al.1, s)
  else
    (.ok (), al.1, s ++ [(k, al.2)])

/-- `SerializableFile.replace(old, new)` from `encoding.py`: clones
`new` first; `KeyError` when `old`'s key is absent or the two keys
disagree, `ValueError` when `old` is not equal to the stored instance;
otherwise the clone replaces the stored instance. -/
def SerializableFile.replace {K V : Type} [DecidableEq K] [DecidableEq V]
    [Inhabited V] (key : V → K) (h : Heap V) (s : SDic K) (aOld aNew : Nat) :
    Except PyError Unit × Heap V × SDic K :=
  let al := h.alloc (h.read aNew)
  let k := key (h.read aOld)
  let newKey := key (h.read aNew)
  match dicLookup s k with
  | none => (.error .keyError, al.1, s)
  | some aStored =>
    if k ≠ newKey then
      (.error .keyError, al.1, s)
    else if h.read aOld ≠ h.read aStored then
      (.error .valueError, al.1, s)
    else
      (.ok (), al.1, dicInsert s k al.2)

/-- `SerializableFile.pop(key)` from `encoding.py`: `KeyError` when the
key is absent; otherwise removes the entry and returns the popped
instance itself — `obj = self._dic.pop(key); return obj`, with no
`model_copy`. -/
def SerializableFile.pop {K V : Type} [DecidableEq K] (h : Heap V) (s : SDic K)
    (k : K) : Except PyError Nat × Heap V × SDic K :=
  match dicLookup s k with
  | none => (.error .keyError, h, s)
  | some a => (.ok a, h, dicRemove s k)

/-! ## Multi-keyed store (`MultiKeySerializableFile`), value level

`count`, `pop(obj=...)` and `add` act on `_dic : dict[K, list[V]]`.
They are embedded at the value level (the deep clone `add` stores is
value-equal to its argument). -/

/-- The dictionary of a `MultiKeySerializableFile`. -/
abbrev MDic (K V : Type) : Type := List (K × List V)

/-- `key in self._dic` / `self._dic[key]`. -/
def mLookup {K V : Type} [DecidableEq K] (s : MDic K V) (k : K) : Option (List V) :=
  (List.find? (fun e => decide (e.1 = k)) s).map fun e => e.2

/-- Replaces the list stored under `k` (which must be present). -/
def mSetKey {K V : Type} [DecidableEq K] (s : MDic K V) (k : K) (l : List V) :
    MDic K V :=
  List.map (fun e => if e.1 = k then (k, l) else e) s

/-- `self._dic.pop(key)`'s removal of the whole entry. -/
def mRemoveKey {K V : Type} [DecidableEq K] (s : MDic K V) (k : K) : MDic K V :=
  List.filter (fun e => decide (e.1 ≠ k)) s

/-- `self._dic.setdefault(key, []).append(obj)`. -/
def mAppendAt {K V : Type} [DecidableEq K] (s : MDic K V) (k : K) (v : V) :
    MDic K V :=
  if (mLookup s k).isSome then
    List.map (fun e => if e.1 = k then (e.1, e.2 ++ [v]) else e) s
  else
    s ++ [(k, [v])]

/-- `MultiKeySerializableFile.count(key=k)` from `encoding.py`: 0 when
the key is absent, else the length of its list. -/
def MultiKeySerializableFile.count_key {K V : Type} [DecidableEq K]
    (s : MDic K V) (k : K) : Nat :=
  match mLookup s k with
  | none => 0
  | some l => l.length

/-- The scan of `MultiKeySerializableFile.pop(obj=...)`: the first
element equal to `r` together with the list with it removed. -/
def popFirstEq {V : Type} [DecidableEq V] : List V → V → Option (V × List V)
  | [], _ => none
  | x :: xs, r =>
    if x = r then
      some (x, xs)
    else
      (popFirstEq xs r).map fun p => (p.1, x :: p.2)

/-- `MultiKeySerializableFile.pop(obj=r)` from `encoding.py`:
`KeyError` when `r`'s key is absent; otherwise removes the first stored
instance equal to `r` and returns it (dropping the key when its list
became empty), or `ValueError` when none is equal. -/
def MultiKeySerializableFile.pop_obj {K V : Type} [DecidableEq K] [DecidableEq V]
    (key : V → K) (s : MDic K V) (r : V) : Except PyError V × MDic K V :=
  let k := key r
  match mLookup s k with
  | none => (.error .keyError, s)
  | some l =>
    match popFirstEq l r with
    | none => (.error .valueError, s)
    | some (o, l2) =>
      if l2 = [] then
        (.ok o, mRemoveKey s k)
      else
        (.ok o, mSetKey s k l2)

/-- `MultiKeySerializableFile.add(obj)` from `encoding.py`:
`ValueError` when an equal instance is already stored under the key,
otherwise appends (a deep clone of) `obj` to the key's list. -/
def MultiKeySerializableFile.add {K V : Type} [DecidableEq K] [DecidableEq V]
    (key : V → K) (s : MDic K V) (r : V) : Except PyError Unit × MDic K V :=
  let k := key r
  if r ∈ (mLookup s k).getD [] then
    (.error .valueError, s)
  else
    (.ok (), mAppendAt s k r)

/-! ## Theorems -/

/-! ### Helper lemmas for the heap-based store claims -/

/-- Allocation does not disturb existing instances. -/
theorem Heap.read_alloc_lt {V : Type} [Inhabited V] (h : Heap V) (v : V) (a : Nat)
    (ha : a < h.recs.length) : (h.alloc v).1.read a = h.read a := by
  simp only [Heap.alloc, Heap.read]
  exact List.getD_append _ _ _ _ ha

/-- A freshly allocated instance holds the allocated value. -/
theorem Heap.read_alloc_fresh {V : Type} [Inhabited V] (h : Heap V) (v : V) :
    (h.alloc v).1.read h.recs.length = v := by
  simp only [Heap.alloc, Heap.read]
  rw [List.getD_append_right _ _ _ _ (Nat.le_refl _)]
  simp

/-- Mutating one instance does not disturb another. -/
theorem Heap.read_write_ne {V : Type} [Inhabited V] (h : Heap V) (a b : Nat)
    (v : V) (hab : a ≠ b) : (h.write a v).read b = h.read b := by
  simp only [Heap.write, Heap.read, List.getD_eq_getElem?_getD]
  rw [List.getElem?_set_ne hab]

/-- Looking up a key just appended to a dictionary that lacked it. -/
theorem dicLookup_append_self {K : Type} [DecidableEq K] (s : SDic K) (k : K)
    (a : Nat) (h : dicLookup s k = none) : dicLookup (s ++ [(k, a)]) k = some a := by
  unfold dicLookup at h ⊢
  have h0 : List.find? (fun e => decide (e.1 = k)) s = none := by
    cases hf : List.find? (fun e => decide (e.1 = k)) s with
    | none => rfl
    | some e => rw [hf] at h; simp at h
  rw [List.find?_append, h0]
  simp

/-- Overwriting one entry keeps the first hit at its key. -/
theorem find?_map_overwrite {K : Type} [DecidableEq K] (s : List (K × Nat))
    (k : K) (b : Nat)
    (h : (List.find? (fun e => decide (e.1 = k)) s).isSome = true) :
    List.find? (fun e => decide (e.1 = k))
        (s.map fun e => if e.1 = k then (k, b) else e) = some (k, b) := by
  induction s with
  | nil => simp at h
  | cons e es ih =>
    by_cases he : e.1 = k
    · simp [he]
    · simp only [List.map_cons, if_neg he]
      rw [List.find?_cons_of_neg _ (by simp [he])] at h ⊢
      exact ih h

/-- Overwriting a present key: the lookup then yields the new address. -/
theorem dicLookup_insert_self {K : Type} [DecidableEq K] (s : SDic K) (k : K)
    (b : Nat) (h : (dicLookup s k).isSome = true) :
    dicLookup (dicInsert s k b) k = some b := by
  unfold dicInsert
  rw [if_pos h]
  unfold dicLookup at h ⊢
  have h2 : (List.find? (fun e => decide (e.1 = k)) s).isSome = true := by
    cases hf : List.find? (fun e => decide (e.1 = k)) s with
    | none => rw [hf] at h; simp at h
    | some e => rfl
  rw [find?_map_overwrite s k b h2]
  rfl

/-- Claim C5: `modified_externally` returns true exactly when no
snapshot exists yet and the file exists; or a snapshot exists but the
file no longer exists; or the file's current (modification time, size)
pair differs from the snapshot; and false in every other case. -/
theorem c5_modified_externally_iff :
    ∀ (snap : Snapshot) (file : Option FileStat),
      modified_externally snap file = true ↔
        ((snap.last_mtime_ns = none ∧ file.isSome = true) ∨
          (snap.last_mtime_ns ≠ none ∧ file = none) ∨
          (∃ m st, snap.last_mtime_ns = some m ∧ file = some st ∧
            (m ≠ st.mtime_ns ∨ snap.last_size ≠ st.size))) := by
  intro snap file
  rcases snap with ⟨lm, ls⟩
  rcases lm with _ | m <;> rcases file with _ | st <;>
    simp [modified_externally] <;> tauto

/-- Claim C8: two Records compare equal iff their `model_dump()`
mappings are equal; the concrete subclass plays no role (the dump, and
hence equality, is unchanged under any change of the class id). -/
theorem c8_structural_equality :
    (∀ a b : Obj,
      Serializable.eq a (.serializable b) = true ↔ a.model_dump = b.model_dump) ∧
    (∀ (a : Obj) (c : Nat), Obj.model_dump ⟨c, a.fields⟩ = a.model_dump) := by
  constructor
  · intro a b
    simp [Serializable.eq]
  · intro a c
    simp [Obj.model_dump]

/-- Claim C10: `update` raises `TypeError` whenever the concrete type of
the other Record is not exactly the concrete type of the receiver, even
for structurally equal Records — update is stricter about types than
equality. -/
theorem c10_update_exact_type_guard :
    (∀ (a b : Obj) (excluded : List String), a.cls ≠ b.cls →
      Serializable.update a b excluded = .error .typeError) ∧
    (∃ a b : Obj, a.cls ≠ b.cls ∧ Serializable.eq a (.serializable b) = true ∧
      Serializable.update a b [] = .error .typeError) := by
  constructor
  · intro a b excluded hne
    simp [Serializable.update, hne]
  · exact ⟨⟨0, []⟩, ⟨1, []⟩, by decide, by decide, by decide⟩

/-- Witness for C10: a concrete pair of structurally equal Records of
different concrete classes, on which `update` raises `TypeError`. -/
theorem c10_update_exact_type_guard_witness :
    Serializable.update ⟨0, []⟩ ⟨1, []⟩ [] = .error .typeError :=
  c10_update_exact_type_guard.1 ⟨0, []⟩ ⟨1, []⟩ [] (by decide)

/-! ### Helper lemmas for the `update` claims -/

/-- Every exception `validate_type` raises is a `TypeError`. -/
theorem validate_type_error_typeError {m : UpdateMode} {t1 t2 : PyType} {e : PyError}
    (h : m.validate_type t1 t2 = .error e) : e = .typeError := by
  unfold UpdateMode.validate_type at h
  split at h
  · split at h <;> simp_all
  · split at h
    · simp only [] at h
      split at h
      · simp_all
      · split at h <;> simp_all
    · simp_all

/-- `validate_type` accepts `MERGE` exactly for two dicts, two sets, or
two instances of the identical `Serializable` subclass. -/
theorem validate_type_merge_ok_iff (t1 t2 : PyType) :
    UpdateMode.merge.validate_type t1 t2 = .ok () ↔
      ((t1 = .dict ∧ t2 = .dict) ∨ (t1 = .set ∧ t2 = .set) ∨
        ∃ c, t1 = .serial c ∧ t2 = .serial c) := by
  cases t1 <;> cases t2 <;>
    simp [UpdateMode.validate_type, PyType.isSerialSubclass] <;>
    exact eq_comm

/-- `validate_type` accepts the two list-append modes exactly when both
sides are lists. -/
theorem validate_type_listAppend_ok_iff (m : UpdateMode) (t1 t2 : PyType)
    (hm : m = .listAppend ∨ m = .listAppendIfNotExists) :
    m.validate_type t1 t2 = .ok () ↔ (t1 = .list ∧ t2 = .list) := by
  rcases hm with rfl | rfl <;> cases t1 <;> cases t2 <;>
    simp [UpdateMode.validate_type]

/-- A `find?` over a pointwise-modified list is unchanged when the
modification preserves the predicate and fixes the hits. -/
theorem find?_map_eq_of {α : Type} (l : List α) (p : α → Bool) (g : α → α)
    (h1 : ∀ f, p (g f) = p f) (h2 : ∀ f, p f = true → g f = f) :
    (l.map g).find? p = l.find? p := by
  induction l with
  | nil => rfl
  | cons f fs ih =>
    simp only [List.map_cons]
    cases hp : p f
    · rw [List.find?_cons_of_neg _ (by simp [h1 f, hp]),
        List.find?_cons_of_neg _ (by simp [hp])]
      exact ih
    · rw [List.find?_cons_of_pos _ (by rw [h1 f]; exact hp),
        List.find?_cons_of_pos _ hp, h2 f hp]

/-- Whether a `find?` over a pointwise-modified list hits is unchanged
when the modification preserves the predicate. -/
theorem find?_map_isSome {α : Type} (l : List α) (p : α → Bool) (g : α → α)
    (h1 : ∀ f, p (g f) = p f) :
    ((l.map g).find? p).isSome = (l.find? p).isSome := by
  induction l with
  | nil => rfl
  | cons f fs ih =>
    simp only [List.map_cons]
    cases hp : p f
    · rw [List.find?_cons_of_neg _ (by simp [h1 f, hp]),
        List.find?_cons_of_neg _ (by simp [hp])]
      exact ih
    · rw [List.find?_cons_of_pos _ (by rw [h1 f]; exact hp),
        List.find?_cons_of_pos _ hp]
      rfl

/-- `setattr` on one top-level field leaves lookups of other names
unchanged. -/
theorem Obj.findField_setAttr_ne (o : Obj) (m : String) (v : PVal) (n : String)
    (h : n ≠ m) : (o.setAttr m v).findField n = o.findField n :=
  find?_map_eq_of _ _ _
    (fun f => by by_cases hf : f.name = m <;> simp [hf])
    (fun f hp => by
      have hn : f.name = n := by simpa using hp
      rw [if_neg (by rw [hn]; exact h)])

/-- In-place mutation of one top-level field leaves lookups of other
names unchanged. -/
theorem Obj.findField_setInPlace_ne (o : Obj) (m : String) (v : PVal) (n : String)
    (h : n ≠ m) : (o.setInPlace m v).findField n = o.findField n :=
  find?_map_eq_of _ _ _
    (fun f => by by_cases hf : f.name = m <;> simp [hf])
    (fun f hp => by
      have hn : f.name = n := by simpa using hp
      rw [if_neg (by rw [hn]; exact h)])

/-- `setattr` on a nested object preserves which names resolve. -/
theorem FlatObj.findField_setAttr_isSome (x : FlatObj) (m : String) (v : FVal)
    (n : String) :
    ((x.setAttr m v).findField n).isSome = (x.findField n).isSome :=
  find?_map_isSome _ _ _
    (fun f => by by_cases hf : f.name = m <;> simp [hf])

/-- In-place mutation on a nested object preserves which names resolve. -/
theorem FlatObj.findField_setInPlace_isSome (x : FlatObj) (m : String) (v : FVal)
    (n : String) :
    ((x.setInPlace m v).findField n).isSome = (x.findField n).isSome :=
  find?_map_isSome _ _ _
    (fun f => by by_cases hf : f.name = m <;> simp [hf])

/-- Every exception a nested-level update action raises is a
`TypeError`. -/
theorem flatApply_error_typeError {x : FlatObj} {sf f0 : FField} {e : PyError}
    (h : flatApply x sf f0 = .error e) : e = .typeError := by
  unfold flatApply at h
  split at h <;> (try split at h) <;> simp_all

/-- A successful nested-level update action preserves which names
resolve. -/
theorem flatApply_ok_findField_isSome {x : FlatObj} {sf f0 : FField} {x2 : FlatObj}
    (h : flatApply x sf f0 = .ok x2) (n : String) :
    (x2.findField n).isSome = (x.findField n).isSome := by
  unfold flatApply at h
  split at h <;> (try split at h) <;>
    first
      | (injection h with h
         rw [← h]
         first
           | rfl
           | exact FlatObj.findField_setAttr_isSome x f0.name _ n
           | exact FlatObj.findField_setInPlace_isSome x f0.name _ n)
      | simp_all

/-- When every explicitly-set field of the other nested object resolves
on self, the nested field loop can only raise `TypeError`. -/
theorem flatUpdateGo_error_typeError :
    ∀ (fields : List FField) (x : FlatObj) (excluded : List String) (e : PyError),
      (∀ f ∈ fields, f.isSet = true → (x.findField f.name).isSome = true) →
      flatUpdateGo x fields excluded = .error e → e = .typeError := by
  intro fields
  induction fields with
  | nil => intro x excl e _ h; simp [flatUpdateGo] at h
  | cons f fs ih =>
    intro x excl e hal h
    unfold flatUpdateGo at h
    by_cases hset : f.isSet = false
    · rw [if_pos hset] at h
      exact ih x excl e (fun g hg => hal g (List.mem_cons_of_mem _ hg)) h
    · rw [if_neg hset] at h
      have hset2 : f.isSet = true := by
        revert hset; cases f.isSet <;> simp
      by_cases hex : f.name ∈ excl
      · rw [if_pos hex] at h
        exact ih x excl e (fun g hg => hal g (List.mem_cons_of_mem _ hg)) h
      · rw [if_neg hex] at h
        cases hfind : x.findField f.name with
        | none =>
          have := hal f (List.mem_cons_self _ _) hset2
          rw [hfind] at this
          simp at this
        | some sf =>
          rw [hfind] at h
          dsimp only at h
          cases hval : sf.mode.validate_type sf.value.pyType f.value.pyType with
          | error e2 =>
            rw [hval] at h
            simp only [Except.error.injEq] at h
            subst h
            exact validate_type_error_typeError hval
          | ok u =>
            cases u
            rw [hval] at h
            cases happ : flatApply x sf f with
            | error e2 =>
              rw [happ] at h
              simp only [Except.error.injEq] at h
              subst h
              exact flatApply_error_typeError happ
            | ok x2 =>
              rw [happ] at h
              refine ih x2 excl e (fun g hg hgset => ?_) h
              rw [flatApply_ok_findField_isSome happ]
              exact hal g (List.mem_cons_of_mem _ hg) hgset

/-- Same-class alignment at the nested level: every explicitly-set
field name of `y` resolves on `x` (true of any two instances of one
Python model class). -/
def alignedFlat (x y : FlatObj) : Bool :=
  y.fields.all fun f => !f.isSet || (x.findField f.name).isSome

/-- Alignment of the two sides of a field value pair: for two nested
objects, their fields must align; anything else is unconstrained. -/
def innerAlignedB : PVal → PVal → Bool
  | .vobj xo, .vobj yo => alignedFlat xo yo
  | _, _ => true

/-- Same-class alignment of one top-level field of the other object
against self. -/
def alignedField (a : Obj) (f : Field) : Bool :=
  !f.isSet ||
    (match a.findField f.name with
     | none => false
     | some sf => innerAlignedB sf.value f.value)

/-- Same-class alignment of all the other object's fields against
self. -/
def alignedFields (a : Obj) (fields : List Field) : Bool :=
  fields.all (alignedField a)

/-- A field of the other object on which `update` must raise: it is
explicitly set, not excluded, and its update mode fails
`validate_type` against the two current runtime types. -/
def offendingField (a : Obj) (excluded : List String) (f : Field) : Bool :=
  f.isSet && !(decide (f.name ∈ excluded)) &&
    (match a.findField f.name with
     | none => false
     | some sf =>
       match sf.mode.validate_type sf.value.pyType f.value.pyType with
       | .error _ => true
       | .ok _ => false)

/-- A value of runtime type `list` is a list. -/
theorem pyType_eq_list {v : PVal} (h : v.pyType = .list) : ∃ xs, v = .vlist xs := by
  cases v with
  | atom a => cases a <;> simp [PVal.pyType, Atom.pyType] at h
  | vlist xs => exact ⟨xs, rfl⟩
  | vset xs => simp [PVal.pyType] at h
  | vdict xs => simp [PVal.pyType] at h
  | vobj o => simp [PVal.pyType] at h

/-- A value of runtime type `dict` is a dict. -/
theorem pyType_eq_dict {v : PVal} (h : v.pyType = .dict) : ∃ xs, v = .vdict xs := by
  cases v with
  | atom a => cases a <;> simp [PVal.pyType, Atom.pyType] at h
  | vlist xs => simp [PVal.pyType] at h
  | vset xs => simp [PVal.pyType] at h
  | vdict xs => exact ⟨xs, rfl⟩
  | vobj o => simp [PVal.pyType] at h

/-- A value of runtime type `set` is a set. -/
theorem pyType_eq_set {v : PVal} (h : v.pyType = .set) : ∃ xs, v = .vset xs := by
  cases v with
  | atom a => cases a <;> simp [PVal.pyType, Atom.pyType] at h
  | vlist xs => simp [PVal.pyType] at h
  | vset xs => exact ⟨xs, rfl⟩
  | vdict xs => simp [PVal.pyType] at h
  | vobj o => simp [PVal.pyType] at h

/-- A value whose runtime type is a `Serializable` class is a nested
object of that class. -/
theorem pyType_eq_serial {v : PVal} {c : Nat} (h : v.pyType = .serial c) :
    ∃ o, v = .vobj o ∧ o.cls = c := by
  cases v with
  | atom a => cases a <;> simp [PVal.pyType, Atom.pyType] at h
  | vlist xs => simp [PVal.pyType] at h
  | vset xs => simp [PVal.pyType] at h
  | vdict xs => simp [PVal.pyType] at h
  | vobj o =>
    refine ⟨o, rfl, ?_⟩
    simpa [PVal.pyType] using h

/-- Unpacking `alignedFlat` pointwise. -/
theorem alignedFlat_prop {x y : FlatObj} (h : alignedFlat x y = true) :
    ∀ f ∈ y.fields, f.isSet = true → (x.findField f.name).isSome = true := by
  intro f hf hset
  have h2 := List.all_eq_true.mp h f hf
  simpa [hset] using h2

/-- After a `validate_type`-approved action, every exception a
top-level update action raises is a `TypeError` (given the nested
alignment that two instances of one class guarantee). -/
theorem applyField_error_typeError {a : Obj} {sf f0 : Field} {e : PyError}
    (hval : sf.mode.validate_type sf.value.pyType f0.value.pyType = .ok ())
    (hin : innerAlignedB sf.value f0.value = true)
    (h : applyField a sf f0 = .error e) : e = .typeError := by
  unfold applyField at h
  cases hm : sf.mode
  case ignore => rw [hm] at h; exact absurd h (by simp)
  case replace => rw [hm] at h; exact absurd h (by simp)
  case listAppend =>
    rw [hm] at hval
    obtain ⟨h1, h2⟩ := (validate_type_listAppend_ok_iff _ _ _ (Or.inl rfl)).mp hval
    obtain ⟨xs, hxs⟩ := pyType_eq_list h1
    obtain ⟨ys, hys⟩ := pyType_eq_list h2
    rw [hm, hxs, hys] at h
    exact absurd h (by simp)
  case listAppendIfNotExists =>
    rw [hm] at hval
    obtain ⟨h1, h2⟩ := (validate_type_listAppend_ok_iff _ _ _ (Or.inr rfl)).mp hval
    obtain ⟨xs, hxs⟩ := pyType_eq_list h1
    obtain ⟨ys, hys⟩ := pyType_eq_list h2
    rw [hm, hxs, hys] at h
    exact absurd h (by simp)
  case merge =>
    rw [hm] at hval h
    rcases (validate_type_merge_ok_iff _ _).mp hval with ⟨h1, h2⟩ | ⟨h1, h2⟩ | ⟨c, h1, h2⟩
    · obtain ⟨xs, hxs⟩ := pyType_eq_dict h1
      obtain ⟨ys, hys⟩ := pyType_eq_dict h2
      rw [hxs, hys] at h
      exact absurd h (by simp)
    · obtain ⟨xs, hxs⟩ := pyType_eq_set h1
      obtain ⟨ys, hys⟩ := pyType_eq_set h2
      rw [hxs, hys] at h
      exact absurd h (by simp)
    · obtain ⟨so, hso, hsoc⟩ := pyType_eq_serial h1
      obtain ⟨fo, hfo, hfoc⟩ := pyType_eq_serial h2
      rw [hso, hfo] at h hin
      dsimp only at h
      cases hup : FlatObj.update so fo [] with
      | ok so2 => rw [hup] at h; exact absurd h (by simp)
      | error e2 =>
        rw [hup] at h
        simp only [Except.error.injEq] at h
        subst h
        unfold FlatObj.update at hup
        rw [if_neg (by simp [hsoc, hfoc])] at hup
        refine flatUpdateGo_error_typeError fo.fields so [] _ ?_ hup
        intro g hg hgset
        have hfl : alignedFlat so fo = true := by simpa [innerAlignedB] using hin
        exact alignedFlat_prop hfl g hg hgset

/-- A successful top-level update action leaves lookups of other names
unchanged. -/
theorem applyField_ok_findField_ne {a : Obj} {sf f0 : Field} {a2 : Obj}
    (h : applyField a sf f0 = .ok a2) (n : String) (hn : n ≠ f0.name) :
    a2.findField n = a.findField n := by
  unfold applyField at h
  split at h <;> (try split at h) <;> (try split at h) <;>
    first
      | (injection h with h
         rw [← h]
         first
           | rfl
           | exact Obj.findField_setAttr_ne a f0.name _ n hn
           | exact Obj.findField_setInPlace_ne a f0.name _ n hn)
      | simp_all

/-- When the other object has an offending field (set, not excluded,
mode incompatible with the two runtime types), the field loop of
`update` raises `TypeError`. -/
theorem updateGo_offending_typeError :
    ∀ (fields : List Field) (a : Obj) (excluded : List String),
      alignedFields a fields = true →
      (fields.map Field.name).Nodup →
      fields.any (offendingField a excluded) = true →
      updateGo a fields excluded = .error .typeError := by
  intro fields
  induction fields with
  | nil =>
    intro a excl _ _ h3
    simp at h3
  | cons f fs ih =>
    intro a excl hal hnd hany
    rw [List.map_cons] at hnd
    have hnd' := List.nodup_cons.mp hnd
    obtain ⟨halh, halt⟩ : alignedField a f = true ∧ fs.all (alignedField a) = true := by
      simpa [alignedFields] using hal
    unfold updateGo
    by_cases hset : f.isSet = false
    · rw [if_pos hset]
      refine ih a excl halt hnd'.2 ?_
      rcases (by simpa using hany : offendingField a excl f = true ∨
          fs.any (offendingField a excl) = true) with hf | ht
      · exfalso; simp [offendingField, hset] at hf
      · exact ht
    · rw [if_neg hset]
      have hset2 : f.isSet = true := by revert hset; cases f.isSet <;> simp
      by_cases hex : f.name ∈ excl
      · rw [if_pos hex]
        refine ih a excl halt hnd'.2 ?_
        rcases (by simpa using hany : offendingField a excl f = true ∨
            fs.any (offendingField a excl) = true) with hf | ht
        · exfalso; simp [offendingField, hex] at hf
        · exact ht
      · rw [if_neg hex]
        cases hfind : a.findField f.name with
        | none =>
          exfalso
          simp [alignedField, hset2, hfind] at halh
        | some sf =>
          dsimp only
          cases hval : sf.mode.validate_type sf.value.pyType f.value.pyType with
          | error e2 =>
            dsimp only
            rw [validate_type_error_typeError hval]
          | ok u =>
            cases u
            dsimp only
            cases happ : applyField a sf f with
            | error e2 =>
              dsimp only
              have hin : innerAlignedB sf.value f.value = true := by
                simpa [alignedField, hset2, hfind] using halh
              rw [applyField_error_typeError hval hin happ]
            | ok a2 =>
              dsimp only
              have hany0 : fs.any (offendingField a excl) = true := by
                rcases (by simpa using hany : offendingField a excl f = true ∨
                    fs.any (offendingField a excl) = true) with hf | ht
                · exfalso; simp [offendingField, hfind, hval] at hf
                · exact ht
              have hmem_ne : ∀ g ∈ fs, g.name ≠ f.name := by
                intro g hg hEq
                exact hnd'.1 (hEq ▸ List.mem_map_of_mem Field.name hg)
              have htrans : fs.any (offendingField a2 excl) = true := by
                obtain ⟨g, hg, hgoff⟩ := List.any_eq_true.mp hany0
                refine List.any_eq_true.mpr ⟨g, hg, ?_⟩
                have hff := applyField_ok_findField_ne happ g.name (hmem_ne g hg)
                simpa [offendingField, hff] using hgoff
              have haltrans : fs.all (alignedField a2) = true := by
                rw [List.all_eq_true] at halt ⊢
                intro g hg
                have hff := applyField_ok_findField_ne happ g.name (hmem_ne g hg)
                simpa [alignedField, hff] using halt g hg
              exact ih a2 excl haltrans hnd'.2 htrans

/-- Claim C9: `MERGE` is accepted exactly for two dicts, two sets, or
two instances of the identical `Serializable` class; list-append modes
exactly for two lists; and a call to `update` whose (set, non-excluded)
fields include a policy/type mismatch raises `TypeError` at update time
instead of ignoring it.  The last part assumes what being two instances
of one Python class guarantees: equal class ids, aligned field names
(also inside nested merge fields), and no duplicate field name. -/
theorem c9_incompatible_policy_raises :
    (∀ t1 t2 : PyType, UpdateMode.merge.validate_type t1 t2 = .ok () ↔
        ((t1 = .dict ∧ t2 = .dict) ∨ (t1 = .set ∧ t2 = .set) ∨
          ∃ c, t1 = .serial c ∧ t2 = .serial c)) ∧
    (∀ (m : UpdateMode) (t1 t2 : PyType),
        (m = .listAppend ∨ m = .listAppendIfNotExists) →
        (m.validate_type t1 t2 = .ok () ↔ (t1 = .list ∧ t2 = .list))) ∧
    (∀ (a b : Obj) (excluded : List String),
        a.cls = b.cls →
        alignedFields a b.fields = true →
        (b.fields.map Field.name).Nodup →
        b.fields.any (offendingField a excluded) = true →
        Serializable.update a b excluded = .error .typeError) := by
  refine ⟨validate_type_merge_ok_iff, validate_type_listAppend_ok_iff, ?_⟩
  intro a b excluded hcls hal hnd hany
  unfold Serializable.update
  rw [if_neg (by simp [hcls])]
  exact updateGo_offending_typeError b.fields a excluded hal hnd hany

/-- A Record with one `MERGE`-mode field holding an int. -/
def mergeIntObjA : Obj := ⟨0, [⟨"d", .merge, true, .atom (.aint 1)⟩]⟩

/-- A second Record of the same class, same shape. -/
def mergeIntObjB : Obj := ⟨0, [⟨"d", .merge, true, .atom (.aint 2)⟩]⟩

/-- Witness for C9: two same-class Records whose `MERGE` field holds
ints; their `update` raises `TypeError`. -/
theorem c9_incompatible_policy_raises_witness :
    alignedFields mergeIntObjA mergeIntObjB.fields = true ∧
    (mergeIntObjB.fields.map Field.name).Nodup ∧
    mergeIntObjB.fields.any (offendingField mergeIntObjA []) = true ∧
    Serializable.update mergeIntObjA mergeIntObjB [] = .error .typeError :=
  ⟨by decide, by decide, by decide,
    c9_incompatible_policy_raises.2.2 mergeIntObjA mergeIntObjB [] rfl
      (by decide) (by decide) (by decide)⟩

/-- A Record shape with both fields at their declared defaults
(`id = 0`, `name = "Obj"`), neither explicitly set. -/
def allDefaultObj : Obj :=
  ⟨0, [⟨"id", .replace, false, .atom (.aint 0)⟩,
       ⟨"name", .replace, false, .atom (.astr "Obj")⟩]⟩

/-- The declared defaults of `allDefaultObj`'s class. -/
def allDefaultObjDefaults : List (String × PVal) :=
  [("id", .atom (.aint 0)), ("name", .atom (.astr "Obj"))]

/-- Claim C2 (code bug): the stores serialize with `model_dump_json()`
and no exclusion argument, so a field whose value equals its declared
default is *not* omitted: a Record with every field at its default
encodes to a full object listing all fields, not to the empty-object
encoding `\x7b\x7d`. -/
theorem c2_default_fields_not_omitted :
    (allDefaultObj.fields.all fun f =>
        (allDefaultObjDefaults.find? fun e => e.1 = f.name).map Prod.snd
          = some f.value) = true ∧
    Obj.model_dump_json allDefaultObj = "\x7b\"id\":0,\"name\":\"Obj\"\x7d" ∧
    Obj.model_dump_json allDefaultObj ≠ "\x7b\x7d" ∧
    SerializableFile.serializeDic [((0 : Nat), allDefaultObj)]
      = "\x7b\"id\":0,\"name\":\"Obj\"\x7d" ∧
    MultiKeySerializableFile.serializeDic [((0 : Nat), [allDefaultObj])]
      = "\x7b\"id\":0,\"name\":\"Obj\"\x7d" := by
  refine ⟨by decide, rfl, by decide, rfl, rfl⟩

/-- Claim C6: on the unique-key store, a second `add` under an
already-present key raises `KeyError` and leaves the dictionary
unchanged; `replace(old, new)` succeeds when `old` equals the stored
Record and the keys agree, after which `get` hands back `new`'s value;
`replace` raises `ValueError` when `old` differs from the stored Record
and `KeyError` when the two keys disagree.  The last conjunct ties the
`obsGet` observation to what `get` itself returns. -/
theorem c6_unique_key_store {K V : Type} [DecidableEq K] [DecidableEq V]
    [Inhabited V] (key : V → K) :
    (∀ (h : Heap V) (s : SDic K) (a1 a2 : Nat) (h1 : Heap V) (s1 : SDic K),
      a2 < h.recs.length →
      key (h.read a1) = key (h.read a2) →
      SerializableFile.add key h s a1 = (.ok (), h1, s1) →
      SerializableFile.add key h1 s1 a2 =
        (.error .keyError, (h1.alloc (h1.read a2)).1, s1)) ∧
    (∀ (h : Heap V) (s : SDic K) (aOld aNew aStored : Nat),
      dicLookup s (key (h.read aOld)) = some aStored →
      key (h.read aOld) = key (h.read aNew) →
      h.read aOld = h.read aStored →
      SerializableFile.replace key h s aOld aNew =
        (.ok (), (h.alloc (h.read aNew)).1,
          dicInsert s (key (h.read aOld)) h.recs.length) ∧
      obsGet (h.alloc (h.read aNew)).1
          (dicInsert s (key (h.read aOld)) h.recs.length) (key (h.read aOld))
        = some (h.read aNew)) ∧
    (∀ (h : Heap V) (s : SDic K) (aOld aNew aStored : Nat),
      dicLookup s (key (h.read aOld)) = some aStored →
      key (h.read aOld) = key (h.read aNew) →
      h.read aOld ≠ h.read aStored →
      SerializableFile.replace key h s aOld aNew =
        (.error .valueError, (h.alloc (h.read aNew)).1, s)) ∧
    (∀ (h : Heap V) (s : SDic K) (aOld aNew : Nat),
      key (h.read aOld) ≠ key (h.read aNew) →
      SerializableFile.replace key h s aOld aNew =
        (.error .keyError, (h.alloc (h.read aNew)).1, s)) ∧
    (∀ (h : Heap V) (s : SDic K) (k : K) (v : V),
      obsGet h s k = some v →
      SerializableFile.get h s k = (.ok h.recs.length, (h.alloc v).1)) := by
  refine ⟨?_, ?_, ?_, ?_, ?_⟩
  · intro h s a1 a2 h1 s1 ha2 hkey hadd
    unfold SerializableFile.add at hadd
    dsimp only at hadd
    split at hadd
    · exact absurd hadd (by simp)
    · rename_i hlk
      simp only [Prod.mk.injEq] at hadd
      obtain ⟨-, hh1, hs1⟩ := hadd
      subst hh1
      subst hs1
      unfold SerializableFile.add
      dsimp only
      rw [Heap.read_alloc_lt h (h.read a1) a2 ha2, ← hkey,
        dicLookup_append_self s _ _ (Option.not_isSome_iff_eq_none.mp hlk)]
      simp
  · intro h s aOld aNew aStored hlk hkeys hvals
    unfold SerializableFile.replace
    dsimp only
    rw [hlk]
    dsimp only
    rw [if_neg (by simp [hkeys]), if_neg (by simp [hvals])]
    refine ⟨rfl, ?_⟩
    unfold obsGet
    rw [dicLookup_insert_self s _ h.recs.length (by rw [hlk]; rfl)]
    simp only [Option.map_some']
    rw [Heap.read_alloc_fresh]
  · intro h s aOld aNew aStored hlk hkeys hvals
    unfold SerializableFile.replace
    dsimp only
    rw [hlk]
    dsimp only
    rw [if_neg (by simp [hkeys]), if_pos hvals]
  · intro h s aOld aNew hkeys
    unfold SerializableFile.replace
    dsimp only
    cases hlk : dicLookup s (key (h.read aOld)) with
    | none => simp
    | some aStored =>
      dsimp only
      rw [if_pos hkeys]
  · intro h s k v hobs
    unfold obsGet at hobs
    cases hlk : dicLookup s k with
    | none => rw [hlk] at hobs; simp at hobs
    | some a =>
      rw [hlk] at hobs
      simp only [Option.map_some', Option.some.injEq] at hobs
      unfold SerializableFile.get
      rw [hlk]
      dsimp only
      rw [hobs]
      rfl

/-- A concrete two-instance heap: address 0 holds the record
`(1, "a")`, address 1 holds `(1, "b")`; `Prod.fst` is the key field. -/
def c6H0 : Heap (Nat × String) := ⟨[(1, "a"), (1, "b")]⟩

/-- `c6H0` after `add` cloned address 0. -/
def c6H1 : Heap (Nat × String) := ⟨[(1, "a"), (1, "b"), (1, "a")]⟩

/-- Witness for C6: adding `(1, "a")`, a second add of `(1, "b")` under
key 1 raises `KeyError`; `replace((1,"a")-instance, (1,"b")-instance)`
succeeds and a later `get 1` observes `(1, "b")`; `replace` with a
non-matching old value raises `ValueError`. -/
theorem c6_unique_key_store_witness :
    SerializableFile.add Prod.fst c6H1 [(1, 2)] 1 =
      (.error .keyError, (c6H1.alloc (c6H1.read 1)).1, [(1, 2)]) ∧
    (SerializableFile.replace Prod.fst c6H1 [(1, 2)] 0 1 =
      (.ok (), (c6H1.alloc (c6H1.read 1)).1, dicInsert [(1, 2)] 1 c6H1.recs.length) ∧
      obsGet (c6H1.alloc (c6H1.read 1)).1 (dicInsert [(1, 2)] 1 c6H1.recs.length) 1
        = some (c6H1.read 1)) ∧
    SerializableFile.replace Prod.fst c6H1 [(1, 2)] 1 1 =
      (.error .valueError, (c6H1.alloc (c6H1.read 1)).1, [(1, 2)]) :=
  ⟨(c6_unique_key_store Prod.fst).1 c6H0 [] 0 1 c6H1 [(1, 2)]
      (by decide) (by decide) (by decide),
    (c6_unique_key_store Prod.fst).2.1 c6H1 [(1, 2)] 0 1 2
      (by decide) (by decide) (by decide),
    (c6_unique_key_store Prod.fst).2.2.1 c6H1 [(1, 2)] 1 1 2
      (by decide) (by decide) (by decide)⟩

/-- Overwriting one entry of a multi-key dictionary keeps the first hit
at its key. -/
theorem mfind?_map_overwrite {K V : Type} [DecidableEq K] (s : List (K × List V))
    (k : K) (l : List V)
    (h : (List.find? (fun e => decide (e.1 = k)) s).isSome = true) :
    List.find? (fun e => decide (e.1 = k))
        (s.map fun e => if e.1 = k then (k, l) else e) = some (k, l) := by
  induction s with
  | nil => simp at h
  | cons e es ih =>
    by_cases he : e.1 = k
    · simp [he]
    · simp only [List.map_cons, if_neg he]
      rw [List.find?_cons_of_neg _ (by simp [he])] at h ⊢
      exact ih h

/-- Replacing a present key's list: the lookup then yields it. -/
theorem mLookup_setKey_self {K V : Type} [DecidableEq K] (s : MDic K V) (k : K)
    (l : List V) (h : (mLookup s k).isSome = true) :
    mLookup (mSetKey s k l) k = some l := by
  unfold mSetKey
  unfold mLookup at h ⊢
  have h2 : (List.find? (fun e => decide (e.1 = k)) s).isSome = true := by
    cases hf : List.find? (fun e => decide (e.1 = k)) s with
    | none => rw [hf] at h; simp at h
    | some e => rfl
  rw [mfind?_map_overwrite s k l h2]
  rfl

/-- Claim C7: on the multi-key store holding exactly the two distinct
Records `r1`, `r2` under key `k`, `count(key=k)` is 2; `pop(obj=r2)`
removes exactly that Record and returns it, leaving `count(key=k)` at 1
with `r1` still stored; and `add` of a Record equal to either stored one
raises `ValueError` and leaves the store unchanged. -/
theorem c7_multi_key_store {K V : Type} [DecidableEq K] [DecidableEq V]
    (key : V → K) :
    ∀ (s : MDic K V) (k : K) (r1 r2 : V),
      mLookup s k = some [r1, r2] →
      r1 ≠ r2 →
      key r1 = k → key r2 = k →
      MultiKeySerializableFile.count_key s k = 2 ∧
      MultiKeySerializableFile.pop_obj key s r2 = (.ok r2, mSetKey s k [r1]) ∧
      MultiKeySerializableFile.count_key (mSetKey s k [r1]) k = 1 ∧
      mLookup (mSetKey s k [r1]) k = some [r1] ∧
      (∀ r, (r = r1 ∨ r = r2) →
        MultiKeySerializableFile.add key s r = (.error .valueError, s)) := by
  intro s k r1 r2 hlk hne hk1 hk2
  have hlkSet : mLookup (mSetKey s k [r1]) k = some [r1] :=
    mLookup_setKey_self s k [r1] (by rw [hlk]; rfl)
  refine ⟨?_, ?_, ?_, hlkSet, ?_⟩
  · unfold MultiKeySerializableFile.count_key
    rw [hlk]
    rfl
  · unfold MultiKeySerializableFile.pop_obj
    dsimp only
    rw [hk2, hlk]
    dsimp only
    rw [show popFirstEq [r1, r2] r2 = some (r2, [r1]) by
      simp [popFirstEq, hne]]
    simp
  · unfold MultiKeySerializableFile.count_key
    rw [hlkSet]
    rfl
  · intro r hr
    unfold MultiKeySerializableFile.add
    dsimp only
    rcases hr with rfl | rfl
    · rw [hk1, hlk]
      simp
    · rw [hk2, hlk]
      simp

/-- The concrete multi-key state of the scenario: records `(5, "")` and
`(5, "x")` both stored under key 5. -/
def c7Dic : MDic Nat (Nat × String) := [(5, [(5, ""), (5, "x")])]

/-- Witness for C7 at the concrete scenario store. -/
theorem c7_multi_key_store_witness :
    MultiKeySerializableFile.count_key c7Dic 5 = 2 ∧
    MultiKeySerializableFile.pop_obj Prod.fst c7Dic (5, "x") =
      (.ok (5, "x"), mSetKey c7Dic 5 [(5, "")]) ∧
    MultiKeySerializableFile.count_key (mSetKey c7Dic 5 [(5, "")]) 5 = 1 ∧
    mLookup (mSetKey c7Dic 5 [(5, "")]) 5 = some [(5, "")] ∧
    (∀ r, (r = (5, "") ∨ r = (5, "x")) →
      MultiKeySerializableFile.add Prod.fst c7Dic r = (.error .valueError, c7Dic)) :=
  c7_multi_key_store Prod.fst c7Dic 5 (5, "") (5, "x")
    (by decide) (by decide) (by decide) (by decide)

/-- A looked-up address is among the store's addresses. -/
theorem dicLookup_mem_addrs {K : Type} [DecidableEq K] {s : SDic K} {k : K}
    {a : Nat} (h : dicLookup s k = some a) : a ∈ dicAddrs s := by
  unfold dicLookup at h
  cases hf : List.find? (fun e => decide (e.1 = k)) s with
  | none => rw [hf] at h; simp at h
  | some e =>
    rw [hf] at h
    simp only [Option.map_some', Option.some.injEq] at h
    subst h
    exact List.mem_map_of_mem _ (List.mem_of_find?_eq_some hf)

/-- Mutating an instance the store does not hold changes no
observation. -/
theorem obsGet_write_notin {K V : Type} [DecidableEq K] [Inhabited V]
    {h : Heap V} {s : SDic K} {a : Nat} (ha : a ∉ dicAddrs s) (v : V) (k : K) :
    obsGet (h.write a v) s k = obsGet h s k := by
  unfold obsGet
  cases hlk : dicLookup s k with
  | none => rfl
  | some b =>
    simp only [Option.map_some']
    rw [Heap.read_write_ne h a b v]
    intro hab
    exact ha (hab ▸ dicLookup_mem_addrs hlk)

/-- Allocation changes no observation of a store whose addresses are in
range. -/
theorem obsGet_alloc {K V : Type} [DecidableEq K] [Inhabited V]
    {h : Heap V} {s : SDic K} (hb : ∀ b ∈ dicAddrs s, b < h.recs.length)
    (v : V) (k : K) : obsGet (h.alloc v).1 s k = obsGet h s k := by
  unfold obsGet
  cases hlk : dicLookup s k with
  | none => rfl
  | some b =>
    simp only [Option.map_some']
    rw [Heap.read_alloc_lt h v b (hb b (dicLookup_mem_addrs hlk))]

/-- The addresses after `dicInsert` come from the store or are the new
one. -/
theorem dicAddrs_insert_sub {K : Type} [DecidableEq K] {s : SDic K} {k : K}
    {a b : Nat} (h : b ∈ dicAddrs (dicInsert s k a)) : b ∈ dicAddrs s ∨ b = a := by
  unfold dicInsert at h
  split at h
  · unfold dicAddrs at h
    rw [List.map_map] at h
    obtain ⟨e, he, hbe⟩ := List.mem_map.mp h
    by_cases hek : e.1 = k
    · right
      simp [Function.comp, hek] at hbe
      omega
    · left
      simp [Function.comp, hek] at hbe
      exact hbe ▸ List.mem_map_of_mem _ he
  · unfold dicAddrs at h ⊢
    rw [List.map_append] at h
    rcases List.mem_append.mp h with h1 | h2
    · exact Or.inl h1
    · right
      simpa using h2

/-- The key just popped no longer resolves. -/
theorem dicLookup_remove_none {K : Type} [DecidableEq K] (s : SDic K) (k : K) :
    dicLookup (dicRemove s k) k = none := by
  unfold dicLookup dicRemove
  rw [List.find?_eq_none.mpr]
  · rfl
  · intro e he hp
    have h1 : e.1 = k := by simpa using hp
    have h2 := List.of_mem_filter he
    simp [h1] at h2

/-- With pairwise-distinct stored addresses, the popped instance's
address is not among the remaining ones. -/
theorem pop_removed_not_mem {K : Type} [DecidableEq K] {s : SDic K} {k : K}
    {a : Nat} (hnd : (dicAddrs s).Nodup) (h : dicLookup s k = some a) :
    a ∉ dicAddrs (dicRemove s k) := by
  intro hmem
  unfold dicLookup at h
  cases hf : List.find? (fun e => decide (e.1 = k)) s with
  | none => rw [hf] at h; simp at h
  | some e0 =>
    rw [hf] at h
    simp only [Option.map_some', Option.some.injEq] at h
    have he0s : e0 ∈ s := List.mem_of_find?_eq_some hf
    have he0k : e0.1 = k := by simpa using List.find?_some hf
    unfold dicAddrs dicRemove at hmem
    obtain ⟨e, he, hea⟩ := List.mem_map.mp hmem
    have hes : e ∈ s := List.mem_of_mem_filter he
    have hek : ¬ e.1 = k := by simpa using List.of_mem_filter he
    have : e = e0 :=
      List.inj_on_of_nodup_map hnd hes he0s (by rw [hea, h])
    exact hek (this ▸ he0k)

/-- Counterexample to claim C1 as stated: `SerializableFile.pop` hands
back the very instance the store held, not a clone.  On a store whose
dictionary maps key 1 to the instance at address 0, `pop 1` returns
address 0 itself — the address the store held — and allocates nothing
(the heap is unchanged), while the claim requires the Record handed out
never to be the internally-held instance. -/
theorem c1_pop_returns_stored_instance :
    SerializableFile.pop (K := Nat) (⟨[(1, "a")]⟩ : Heap (Nat × String))
        [(1, 0)] 1 = (.ok 0, ⟨[(1, "a")]⟩, []) ∧
    dicLookup [(1, 0)] 1 = some 0 := by
  constructor
  · rfl
  · rfl

/-- Claim C1 as amended: `get` hands back a fresh clone, and `set`,
`add` and `replace` store fresh clones of the caller's instance, so
mutating a Record obtained from `get` — or the caller's own Record
after passing it to `set`/`add`/`replace` — never changes what a
subsequent `get` returns; `pop` returns the formerly stored instance
itself (not a clone), but removes it from the store first, so mutating
it cannot change any subsequent observation either. -/
theorem c1_store_isolation {K V : Type} [DecidableEq K] [DecidableEq V]
    [Inhabited V] (key : V → K) :
    (∀ (h : Heap V) (s : SDic K) (k : K) (a2 : Nat) (h2 : Heap V),
      (∀ b ∈ dicAddrs s, b < h.recs.length) →
      SerializableFile.get h s k = (.ok a2, h2) →
      a2 ∉ dicAddrs s ∧
        ∀ (v : V) (k2 : K), obsGet (h2.write a2 v) s k2 = obsGet h s k2) ∧
    (∀ (h : Heap V) (s : SDic K) (a : Nat),
      a < h.recs.length → a ∉ dicAddrs s →
      ∀ (v : V) (k2 : K),
        obsGet ((SerializableFile.set key h s a).1.write a v)
            (SerializableFile.set key h s a).2 k2
          = obsGet (SerializableFile.set key h s a).1
              (SerializableFile.set key h s a).2 k2) ∧
    (∀ (h : Heap V) (s : SDic K) (a : Nat),
      a < h.recs.length → a ∉ dicAddrs s →
      ∀ (v : V) (k2 : K),
        obsGet ((SerializableFile.add key h s a).2.1.write a v)
            (SerializableFile.add key h s a).2.2 k2
          = obsGet (SerializableFile.add key h s a).2.1
              (SerializableFile.add key h s a).2.2 k2) ∧
    (∀ (h : Heap V) (s : SDic K) (aOld aNew : Nat),
      aNew < h.recs.length → aNew ∉ dicAddrs s →
      ∀ (v : V) (k2 : K),
        obsGet ((SerializableFile.replace key h s aOld aNew).2.1.write aNew v)
            (SerializableFile.replace key h s aOld aNew).2.2 k2
          = obsGet (SerializableFile.replace key h s aOld aNew).2.1
              (SerializableFile.replace key h s aOld aNew).2.2 k2) ∧
    (∀ (h : Heap V) (s : SDic K) (k : K) (a : Nat) (h2 : Heap V) (s2 : SDic K),
      (dicAddrs s).Nodup →
      SerializableFile.pop h s k = (.ok a, h2, s2) →
      h2 = h ∧ s2 = dicRemove s k ∧ dicLookup s2 k = none ∧
        a ∉ dicAddrs s2 ∧
        ∀ (v : V) (k2 : K), obsGet (h.write a v) s2 k2 = obsGet h s2 k2) := by
  refine ⟨?_, ?_, ?_, ?_, ?_⟩
  · intro h s k a2 h2 hb hget
    unfold SerializableFile.get at hget
    cases hlk : dicLookup s k with
    | none => rw [hlk] at hget; exact absurd hget (by simp)
    | some a =>
      rw [hlk] at hget
      simp only [Prod.mk.injEq, Except.ok.injEq] at hget
      obtain ⟨ha2, hh2⟩ := hget
      have ha2len : a2 = h.recs.length := ha2.symm
      subst ha2len
      subst hh2
      constructor
      · intro hmem
        exact absurd (hb _ hmem) (by omega)
      · intro v k2
        rw [obsGet_write_notin (fun hmem => absurd (hb _ hmem) (by omega)) v k2]
        exact obsGet_alloc hb (h.read a) k2
  · intro h s a halen hamem v k2
    unfold SerializableFile.set
    dsimp only
    refine obsGet_write_notin ?_ v k2
    intro hmem
    rcases dicAddrs_insert_sub hmem with h1 | h2
    · exact hamem h1
    · have h3 : a = h.recs.length := h2
      omega
  · intro h s a halen hamem v k2
    unfold SerializableFile.add
    dsimp only
    split
    · exact obsGet_write_notin hamem v k2
    · refine obsGet_write_notin ?_ v k2
      intro hmem
      unfold dicAddrs at hmem
      rw [List.map_append] at hmem
      rcases List.mem_append.mp hmem with h1 | h2
      · exact hamem h1
      · have h3 : a = h.recs.length := by simpa [Heap.alloc] using h2
        omega
  · intro h s aOld aNew halen hamem v k2
    unfold SerializableFile.replace
    dsimp only
    split
    · exact obsGet_write_notin hamem v k2
    · split
      · exact obsGet_write_notin hamem v k2
      · split
        · exact obsGet_write_notin hamem v k2
        · refine obsGet_write_notin ?_ v k2
          intro hmem
          rcases dicAddrs_insert_sub hmem with h1 | h2
          · exact hamem h1
          · have h3 : aNew = h.recs.length := h2
            omega
  · intro h s k a h2 s2 hnd hpop
    unfold SerializableFile.pop at hpop
    cases hlk : dicLookup s k with
    | none => rw [hlk] at hpop; exact absurd hpop (by simp)
    | some a0 =>
      rw [hlk] at hpop
      simp only [Prod.mk.injEq, Except.ok.injEq] at hpop
      obtain ⟨ha0, hh2, hs2⟩ := hpop
      subst ha0
      refine ⟨hh2.symm, hs2.symm, ?_, ?_, ?_⟩
      · rw [← hs2]
        exact dicLookup_remove_none s k
      · rw [← hs2]
        exact pop_removed_not_mem hnd hlk
      · intro v k2
        refine obsGet_write_notin ?_ v k2
        rw [← hs2]
        exact pop_removed_not_mem hnd hlk

/-- Witness for C1's amended theorem: on the concrete two-record heap,
`get 1` yields a fresh address whose mutation leaves the store
unchanged, and `pop 1` removes the entry so its returned address is
unreferenced. -/
theorem c1_store_isolation_witness :
    ((2 : Nat) ∉ dicAddrs [((1 : Nat), 0)] ∧
      ∀ (v : Nat × String) (k2 : Nat),
        obsGet ((c6H1.write 2 v)) [((1 : Nat), 0)] k2
          = obsGet c6H0 [((1 : Nat), 0)] k2) ∧
    (c6H0 = c6H0 ∧ ([] : SDic Nat) = dicRemove [((1 : Nat), 0)] 1 ∧
      dicLookup ([] : SDic Nat) 1 = none ∧
      (0 : Nat) ∉ dicAddrs ([] : SDic Nat) ∧
      ∀ (v : Nat × String) (k2 : Nat),
        obsGet (c6H0.write 0 v) ([] : SDic Nat) k2 = obsGet c6H0 ([] : SDic Nat) k2) :=
  ⟨(c1_store_isolation (K := Nat) (V := Nat × String) Prod.fst).1
      c6H0 [(1, 0)] 1 2 c6H1 (by decide) (by decide),
    (c1_store_isolation (K := Nat) (V := Nat × String) Prod.fst).2.2.2.2
      c6H0 [(1, 0)] 1 0 c6H0 [] (by decide) (by decide)⟩

/-! ### Helper lemmas for the lock/scope claims -/

/-- `_read` inside a `modify` scope does nothing at all. -/
theorem readOp_depth_pos {D : Type} (dz : List String → Except PyError D)
    (s : TFState D) (h : s.modifyDepth > 0) : readOp dz s = (.ok (), s, []) := by
  unfold readOp
  rw [if_pos h]

/-- `readOp` never changes `_modify_depth`. -/
theorem readOp_modifyDepth {D : Type} (dz : List String → Except PyError D)
    (s : TFState D) : (readOp dz s).2.1.modifyDepth = s.modifyDepth := by
  unfold readOp
  split
  · rfl
  · split
    · rfl
    · split
      · split <;> rfl
      · split <;> rfl

/-- `readOp` never changes the lock count (its acquire and release
pair up). -/
theorem readOp_lockCount {D : Type} (dz : List String → Except PyError D)
    (s : TFState D) : (readOp dz s).2.1.lockCount = s.lockCount := by
  unfold readOp
  split
  · rfl
  · split
    · rfl
    · split
      · split <;> rfl
      · split <;> rfl

/-- `writeOp` never changes `_modify_depth`. -/
theorem writeOp_modifyDepth {D : Type} (sz : D → String) (s : TFState D) :
    (writeOp sz s).1.modifyDepth = s.modifyDepth := by
  unfold writeOp
  split <;> rfl

/-- `writeOp` never changes the lock count. -/
theorem writeOp_lockCount {D : Type} (sz : D → String) (s : TFState D) :
    (writeOp sz s).1.lockCount = s.lockCount := by
  unfold writeOp
  split <;> rfl

/-- Executing any program restores `_modify_depth` to its entry value:
every `modify` exit undoes its entry. -/
theorem execP_modifyDepth {D : Type} (dz : List String → Except PyError D)
    (sz : D → String) :
    ∀ (p : Prog D) (s : TFState D),
      (execP dz sz p s).2.1.modifyDepth = s.modifyDepth := by
  intro p
  induction p with
  | act f =>
    intro s
    unfold execP
    split <;> rfl
  | readCall =>
    intro s
    exact readOp_modifyDepth dz s
  | writeCall =>
    intro s
    unfold execP
    exact writeOp_modifyDepth sz s
  | seq p q ihp ihq =>
    intro s
    unfold execP
    dsimp only
    split
    · dsimp only
      rw [ihq, ihp]
    · exact ihp s
  | modifyScope p ih =>
    intro s
    unfold execP
    dsimp only
    split
    · rename_i hd1
      rw [readOp_depth_pos dz _ (by simp)]
      dsimp only
      split
      · simp [writeOp_modifyDepth, ih]
      · simp [ih]
    · split
      · simp [writeOp_modifyDepth, ih]
      · simp [ih]

/-- The lock invariant: starting from a state where the lock is held
exactly when inside a `modify` scope, every program ends in such a
state — the lock count ends at 0 exactly when the nesting depth is
back at 0, on success and on error alike. -/
theorem execP_lockCount {D : Type} (dz : List String → Except PyError D)
    (sz : D → String) :
    ∀ (p : Prog D) (s : TFState D),
      s.lockCount = (if s.modifyDepth = 0 then 0 else 1) →
      (execP dz sz p s).2.1.lockCount =
        (if (execP dz sz p s).2.1.modifyDepth = 0 then 0 else 1) := by
  intro p
  induction p with
  | act f =>
    intro s hs
    unfold execP
    split <;> simpa using hs
  | readCall =>
    intro s hs
    unfold execP
    rw [readOp_lockCount, readOp_modifyDepth]
    exact hs
  | writeCall =>
    intro s hs
    unfold execP
    dsimp only
    rw [writeOp_lockCount, writeOp_modifyDepth]
    exact hs
  | seq p q ihp ihq =>
    intro s hs
    unfold execP
    dsimp only
    split
    · dsimp only
      exact ihq _ (ihp s hs)
    · exact ihp s hs
  | modifyScope p ih =>
    intro s hs
    unfold execP
    dsimp only
    split
    · rename_i hd1
      have hd0 : s.modifyDepth = 0 := by simpa using hd1
      have hl0 : s.lockCount = 0 := by rw [hs, if_pos hd0]
      rw [readOp_depth_pos dz _ (by simp)]
      dsimp only
      have hbody := ih { s with modifyDepth := s.modifyDepth + 1, lockCount := s.lockCount + 1 }
        (by simp [hl0])
      have hdepth := execP_modifyDepth dz sz p
        { s with modifyDepth := s.modifyDepth + 1, lockCount := s.lockCount + 1 }
      simp only [hd0, Nat.zero_add] at hbody hdepth ⊢
      split
      · rw [writeOp_lockCount, writeOp_modifyDepth]
        dsimp only
        simp [hbody, hdepth]
      · rename_i h0
        exfalso
        apply h0
        simp [hdepth]
    · rename_i hd1
      have hdne : s.modifyDepth ≠ 0 := by
        intro h
        exact hd1 (by simp [h])
      have hl1 : s.lockCount = 1 := by rw [hs, if_neg hdne]
      have hbody := ih { s with modifyDepth := s.modifyDepth + 1 } (by simp [hl1])
      have hdepth := execP_modifyDepth dz sz p { s with modifyDepth := s.modifyDepth + 1 }
      split
      · rename_i h0
        exfalso
        apply hdne
        simp only [hdepth] at h0
        simpa using h0
      · dsimp only
        simp [hbody, hdepth, hdne]

/-- Claim C3: starting outside any critical section (nesting depth 0,
lock not held), after executing any program of store operations and
`modify` scopes — whether its body returns normally or propagates an
exception — the nesting depth is back at 0 and the lock is no longer
held. -/
theorem c3_lock_released_on_every_exit {D : Type}
    (dz : List String → Except PyError D) (sz : D → String)
    (p : Prog D) (s : TFState D)
    (hd : s.modifyDepth = 0) (hl : s.lockCount = 0) :
    (execP dz sz p s).2.1.lockCount = 0 ∧
      (execP dz sz p s).2.1.modifyDepth = 0 := by
  have hdep := execP_modifyDepth dz sz p s
  have hlock := execP_lockCount dz sz p s (by rw [hl, if_pos hd])
  rw [hdep, hd] at hlock
  simp at hlock
  exact ⟨hlock, hdep.trans hd⟩

/-- A deserializer for a plain line store. -/
def lineDz : List String → Except PyError (List String) := fun ls => .ok ls

/-- A serializer for a plain line store. -/
def lineSz : List String → String := fun ls => String.intercalate "\n" ls

/-- A `modify` scope whose body raises `KeyError` after a public read. -/
def c3Prog : Prog (List String) :=
  .modifyScope (.seq .readCall (.act fun _ => .error .keyError))

/-- The quiescent initial state: no lock held, no scope entered, no
file on disk. -/
def c3State : TFState (List String) := ⟨0, 0, none, 0, [], none, 0⟩

/-- Witness for C3: the scope's body raises `KeyError`, the error
propagates, and the lock count and nesting depth still end at 0. -/
theorem c3_lock_released_on_every_exit_witness :
    (execP lineDz lineSz c3Prog c3State).1 = .error .keyError ∧
    (execP lineDz lineSz c3Prog c3State).2.1.lockCount = 0 ∧
    (execP lineDz lineSz c3Prog c3State).2.1.modifyDepth = 0 :=
  ⟨rfl,
    (c3_lock_released_on_every_exit lineDz lineSz c3Prog c3State rfl rfl).1,
    (c3_lock_released_on_every_exit lineDz lineSz c3Prog c3State rfl rfl).2⟩

/-- A store state whose backing file was modified externally after the
snapshot: the cache holds `["old"]`, the file holds `"external"` with a
different mtime. -/
def c4State : TFState (List String) :=
  ⟨0, 0, some 1, 1, ["old"], some ⟨"external", 99, 8⟩, 100⟩

/-- One batched mutation inside a `modify` scope. -/
def c4Prog : Prog (List String) :=
  .modifyScope (.act fun d => .ok (d ++ ["added"]))

/-- Claim C4 (code bug): the file is externally modified, yet entering
the `modify` scope performs **no** file read — `modify` increments
`_modify_depth` before calling `_read`, whose depth guard then returns
immediately — so the scope works on the stale cache and the outermost
exit's single write overwrites the external content without ever having
read it.  The docstring of `modify` ("the file is locked and read
before") and the claim say the outermost entry performs the read. -/
theorem c4_modify_scope_never_reads :
    modified_externally c4State.snapshot (c4State.file.map FileRec.stat) = true ∧
    (execP lineDz lineSz c4Prog c4State).1 = .ok () ∧
    (execP lineDz lineSz c4Prog c4State).2.2.count Ev.fileRead = 0 ∧
    (execP lineDz lineSz c4Prog c4State).2.2.count Ev.fileWrite = 1 ∧
    (execP lineDz lineSz c4Prog c4State).2.1.cache = ["old", "added"] ∧
    ((execP lineDz lineSz c4Prog c4State).2.1.file.map FileRec.content)
      = some ("old" ++ "\n" ++ "added") := by
  refine ⟨rfl, rfl, rfl, rfl, rfl, rfl⟩

end Tbm13
